import Mathlib

/-!
Shallow embedding of the blend/go-html parsing core (`html.go`), covering the
tag tokenizer (`readTag`), the script-body scanner (`readUntilScriptTagClose`),
the cursor primitives (`readUntilTag`, `countNewlinesBefore`), the tag-context
stack (`elementStack`), and the recursive-descent tree builder
(`parseChildren`, `Parse`, `ParseStrict`).

Modelling conventions:
- Go `[]rune` becomes `List Char`; Go `string` becomes Lean `String`.
  `countNewlinesBefore` indexes the bytes of the UTF-8 string in Go; it is
  modelled over the rune sequence, which coincides on ASCII input.
- Go `map[string]string` becomes an association list with replace-on-insert
  (`mapSet`); a nil map and an empty map are identified.
- The mutable cursor is threaded explicitly; functions return the advanced
  cursor together with their value.
- The Go statement pair `*cursor = *cursor - 1; state = k` followed by the
  loop increment re-processes the *same* character under state `k`; it is
  modelled by applying state `k`'s transition to that character in place
  (the net semantics of backtrack-then-increment), so that every recursive
  call advances the cursor by exactly one.
- `parseChildren` recurses through a mutable parent element and can, in Go,
  dereference the nil result of `Peek()` on an empty stack (a runtime panic);
  the embedding returns an explicit `panic` outcome there.  Non-termination
  is impossible but not obvious, so `parseChildren` takes a fuel argument
  (`none` = fuel exhausted); fuel sufficiency is proved below.
- The `Parent` back-pointer of `Element` is omitted: it is a weak
  back-reference never consulted by the parsing core or by `EqualTo`.
-/

namespace GoHtml

/-- Go `isWhitespace`: space, tab, carriage return, newline. -/
def isWhitespace (char : Char) : Bool :=
  char = ' ' || char = '\t' || char = '\r' || char = '\n'

/-- Go `isContinuousWhitespace`: every rune of the corpus is whitespace. -/
def isContinuousWhitespace (corpus : List Char) : Bool :=
  corpus.all isWhitespace

/-- Go `strings.ToLower`, modelled by the ASCII case mapping (the inputs
relevant to the claims are ASCII). -/
def goToLower (s : String) : String :=
  String.mk (s.data.map Char.toLower)

/-- Go `KNOWN_VOID_ELEMENTS` (the fixed known-void-element set). -/
def KNOWN_VOID_ELEMENTS : List String :=
  ["area", "base", "br", "col", "embed", "hr", "img", "input",
   "keygen", "link", "menuitem", "meta", "param", "source", "track", "wbr"]

/-- Go `isKnownVoidElement`. -/
def isKnownVoidElement (elementName : String) : Bool :=
  KNOWN_VOID_ELEMENTS.contains (goToLower elementName)

/-- Go map assignment `m[key] = value`: replace the binding if the key is
present, append it otherwise. -/
def mapSet (m : List (String × String)) (key value : String) :
    List (String × String) :=
  if m.any (fun p => p.1 = key) then
    m.map (fun p => if p.1 = key then (key, value) else p)
  else m ++ [(key, value)]

/-- Go map lookup `m[key]` with presence flag. -/
def mapGet (m : List (String × String)) (key : String) : Option String :=
  (m.find? (fun p => p.1 = key)).map (fun p => p.2)

/-- The non-recursive fields of Go `Element`.  Lean structures cannot be
recursive, so the `Children` list lives in the `Element` inductive below.
The `Parent` back-pointer is omitted (weak reference, unused by the core
and by `EqualTo`). -/
structure ElementData where
  ElementName : String := ""
  InnerHTML : String := ""
  Attributes : List (String × String) := []
  IsText : Bool := false
  IsVoid : Bool := false
  IsComment : Bool := false
  IsRoot : Bool := false
  IsClose : Bool := false
  IsData : Bool := false
deriving Repr, DecidableEq

/-- Go `Element`: the flat fields plus the ordered children. -/
inductive Element where
  | mk (data : ElementData) (Children : List Element)
deriving Repr

/-- The flat fields of an element. -/
def Element.data : Element → ElementData
  | .mk d _ => d

/-- Go `Element.Children`. -/
def Element.Children : Element → List Element
  | .mk _ c => c

/-- Go `Element.AddChild` (the `Parent` fix-up is dropped with the field). -/
def Element.AddChild (e newChild : Element) : Element :=
  .mk e.data (e.Children ++ [newChild])

/-- Go `Element.ElementName`. -/
def Element.ElementName (e : Element) : String :=
  e.data.ElementName

/-- Go `Element.InnerHTML`. -/
def Element.InnerHTML (e : Element) : String :=
  e.data.InnerHTML

/-- Replace the `InnerHTML` field (Go `parentElement.InnerHTML = ...`). -/
def Element.setInnerHTML (e : Element) (s : String) : Element :=
  .mk { e.data with InnerHTML := s } e.Children

/-- Go `newTextNode`: a text leaf holding the run verbatim. -/
def newTextNode (text : List Char) : Element :=
  .mk { ElementName := "text", IsText := true, IsVoid := true,
        InnerHTML := text.asString } []

/-- Go slice-to-string `string(body[a:b])`. -/
def goSlice (body : List Char) (a b : Nat) : String :=
  ((body.drop a).take (b - a)).asString

/-- Go `countNewlinesBefore`: the number of newline characters strictly
before the cursor position. -/
def countNewlinesBefore (body : List Char) (cursorPosition : Nat) : Nat :=
  ((body.take cursorPosition).filter (fun c => c = '\n')).length

/-- Cursor loop of Go `readUntilTag`: advance until a non-whitespace `<`
(which, since `<` is never whitespace, is the first `<`), or end of input.
The loop is driven by the structural fuel `text.length - cursor` supplied
by the entry point, so that the definition is kernel-computable; a `none`
lookup or exhausted fuel is exactly the Go loop condition failing. -/
def readUntilTagAux (text : List Char) : Nat → Nat → Nat
  | 0, cursor => cursor
  | fuel + 1, cursor =>
    match text[cursor]? with
    | none => cursor
    | some c =>
      if isWhitespace c then readUntilTagAux text fuel (cursor + 1)
      else if c = '<' then cursor
      else readUntilTagAux text fuel (cursor + 1)

/-- Go `readUntilTag`: the scanned run and the advanced cursor (the Go
error result is always nil and is dropped). -/
def readUntilTag (text : List Char) (cursor : Nat) : List Char × Nat :=
  let stop := readUntilTagAux text (text.length - cursor) cursor
  ((text.drop cursor).take (stop - cursor), stop)

/-- Result of Go `readTag`: the tag record, the advanced cursor, and the
error (if any). -/
structure ReadTagResult where
  elem : ElementData
  cursor : Nat
  error : Option String
deriving Repr, DecidableEq

/-- The local accumulators of Go `readTag`. -/
structure TagScan where
  elem : ElementData
  attr_name : String := ""
  attr_value : String := ""
  element_name : String := ""
  quote_character : Char := Char.ofNat 0
deriving Repr

/-- Normal completion of Go `readTag` (`>` completion and loop exit): the
name is lower-cased and void-ness is or-ed with known-void membership. -/
def finalizeTagElem (s : TagScan) : ElementData :=
  let e := { s.elem with ElementName := goToLower s.element_name }
  { e with IsVoid := e.IsVoid || isKnownVoidElement e.ElementName }

/-- Self-closing completion of Go `readTag` (`/` paths at states 10/20/100):
void is set directly, the name is lower-cased, no known-void check. -/
def selfCloseElem (s : TagScan) : ElementData :=
  { s.elem with IsVoid := true, ElementName := goToLower s.element_name }

/-- The element of the `almost an XML comment` error return and of the
comment-close return (state 4 else / state 202 on `>`): the name is
lower-cased, nothing else is touched. -/
def plainNameElem (s : TagScan) : ElementData :=
  { s.elem with ElementName := goToLower s.element_name }

/-- The loop-exit return of Go `readTag` (cursor at end of input). -/
def finalizeTag (s : TagScan) (cursor : Nat) : ReadTagResult :=
  ⟨finalizeTagElem s, cursor, none⟩

/-- Outcome of one iteration of the Go `readTag` loop body (the switch):
either continue at the next character with a new state and accumulators, or
return from `readTag`.  Every return inside the Go loop advances the cursor
past the character just processed (`*cursor + 1`), so `done` carries only
the element and the error; the loop driver supplies the cursor. -/
inductive TagStepResult where
  | next (state : Nat) (s : TagScan)
  | done (elem : ElementData) (error : Option String)
deriving Repr

/-- The switch body of Go `readTag`, processing the character `c` found at
`cursor`.  States carry the Go integer labels (0 preamble search,
1 preamble, 2 dead code, 3/4 comment opener, 10 name, 20 attribute scan,
100 attribute name, 101/102/103 attribute value, 200/201/202 comment body);
state 11, reached from state 10 on a `-` in the tag name, matches no case
of the Go switch and therefore skips the character.  Go's one-character
backtracks re-process the same character under the new state and are
modelled by inlining that state's transition at the same character. -/
def readTagStep (c : Char) (state : Nat) (s : TagScan) : TagStepResult :=
  if state = 0 then -- read until tag begins
    if c = '<' then .next 1 s
    else .next 0 s
  else if state = 1 then -- read preamble if any
    if c = '!' then
      .next 3 { s with elem.IsVoid := true }
    else if c = '/' then
      .next 1 { s with elem.IsClose := true }
    else if c = '>' then
      .done (finalizeTagElem s) (some "Empty tag similar to `<>` or `< >` or `</>`")
    else if isWhitespace c then .next 1 s
    else
      .next 10 { s with element_name := s.element_name.push c }
  else if state = 2 then -- read until end of tag (dead code in the source)
    if c = '/' then
      .next 2 { s with elem.IsVoid := true }
    else if c = '>' then .done (finalizeTagElem s) none
    else if isWhitespace c then .next 2 s
    else
      .next 100 { s with element_name := s.element_name.push c }
  else if state = 3 then -- possible xml comment
    if c = '-' then .next 4 s
    else
      -- backtrack: the same character is re-processed under state 1;
      -- state 1's transitions are inlined here (`c` is not `-`)
      if c = '!' then
        .next 3 { s with elem.IsVoid := true }
      else if c = '/' then
        .next 1 { s with elem.IsClose := true }
      else if c = '>' then
        .done (finalizeTagElem s) (some "Empty tag similar to `<>` or `< >` or `</>`")
      else if isWhitespace c then .next 1 s
      else
        .next 10 { s with element_name := s.element_name.push c }
  else if state = 4 then
    if c = '-' then
      .next 200 { s with elem.IsComment := true, element_name := "xmlcomment" }
    else
      .done (plainNameElem s) (some "Almost an XML comment but not quite.")
  else if state = 10 then -- read elemName
    if isWhitespace c then .next 20 s
    else if c = '-' then .next 11 s
    else if c = '>' then .done (finalizeTagElem s) none
    else if c = '/' then .done (selfCloseElem s) none
    else
      .next 10 { s with element_name := s.element_name.push c }
  else if state = 20 then -- read until attribute or end of tags
    if c = '/' then .done (selfCloseElem s) none
    else if c = '>' then .done (finalizeTagElem s) none
    else if isWhitespace c then .next 20 s
    else
      -- backtrack: the same character is re-processed under state 100;
      -- `c` here is not whitespace, `/` or `>`, so only the `=` and
      -- accumulate transitions of state 100 are reachable
      if c = '=' then .next 101 s
      else
        .next 100 { s with attr_name := s.attr_name.push c }
  else if state = 100 then -- read attribute name
    if c = '=' then .next 101 s
    else if c = '>' then
      -- record the attribute, then backtrack to state 20, which on `>`
      -- completes the tag normally
      .done (finalizeTagElem
        { s with elem.Attributes :=
            mapSet s.elem.Attributes (goToLower s.attr_name) "" }) none
    else if c = '/' then
      -- record the attribute, then backtrack to state 20, which on `/`
      -- completes the tag self-closing
      .done (selfCloseElem
        { s with elem.Attributes :=
            mapSet s.elem.Attributes (goToLower s.attr_name) "" }) none
    else if isWhitespace c then
      .next 20
        { s with
            elem.Attributes :=
              mapSet s.elem.Attributes (goToLower s.attr_name) "",
            attr_name := "", attr_value := "" }
    else
      .next 100 { s with attr_name := s.attr_name.push c }
  else if state = 101 then -- set attribute value quote
    if c = '\'' || c = '"' then
      .next 102 { s with quote_character := c }
    else if isWhitespace c then .next 101 s
    else
      .next 103 { s with attr_value := s.attr_value.push c }
  else if state = 102 then -- read attribute value (quoted)
    if c = s.quote_character then
      .next 20
        { s with
            elem.Attributes :=
              mapSet s.elem.Attributes (goToLower s.attr_name) s.attr_value,
            attr_name := "", attr_value := "" }
    else
      .next 102 { s with attr_value := s.attr_value.push c }
  else if state = 103 then -- read attribute value (unquoted)
    if isWhitespace c then
      .next 20
        { s with
            elem.Attributes :=
              mapSet s.elem.Attributes (goToLower s.attr_name) s.attr_value,
            attr_name := "", attr_value := "" }
    else
      .next 103 { s with attr_value := s.attr_value.push c }
  else if state = 200 then -- comment body
    -- the Go loop re-assigns ElementName and IsComment on every iteration
    let s := { s with elem.ElementName := "xmlcomment", elem.IsComment := true }
    if c = '-' then .next 201 s
    else
      .next 200 { s with elem.InnerHTML := s.elem.InnerHTML.push c }
  else if state = 201 then -- tentative comment close
    if c = '-' then .next 202 s
    else
      .next 200 { s with elem.InnerHTML := s.elem.InnerHTML.push c }
  else if state = 202 then -- confirmed comment close
    if c = '>' then
      .done (plainNameElem s) none
    else .next 202 s
  else
    -- no matching case in the Go switch (notably state 11): the character
    -- is skipped and the loop continues
    .next state s

/-- The Go `readTag` for-loop: process the character under the cursor with
`readTagStep` until a return or end of input (where the name is lower-cased
and void-ness computed by `finalizeTag`).  The loop is driven by the
structural fuel `text.length - cursor` supplied by the entry point, so that
the definition is kernel-computable; a `none` lookup or exhausted fuel is
exactly the Go loop condition failing. -/
def readTagAux (text : List Char) : Nat → Nat → Nat → TagScan → ReadTagResult
  | 0, cursor, _, s => finalizeTag s cursor
  | fuel + 1, cursor, state, s =>
    match text[cursor]? with
    | none => finalizeTag s cursor
    | some c =>
      match readTagStep c state s with
      | .next state2 s2 => readTagAux text fuel (cursor + 1) state2 s2
      | .done elem error => ⟨elem, cursor + 1, error⟩

/-- Go `readTag`: run the state machine from state 0 with a fresh element
(`elem.Attributes` initialized to the empty map). -/
def readTag (text : List Char) (cursor : Nat) : ReadTagResult :=
  readTagAux text (text.length - cursor) cursor 0 { elem := {} }

/-- The local accumulators of Go `readUntilScriptTagClose`. -/
structure ScriptScan where
  tag_start : Nat := 0
  working_tag : String := ""
  quote_character : Char := Char.ofNat 0
deriving Repr

/-- Outcome of one iteration of the Go `readUntilScriptTagClose` loop body:
either continue at the next character, or return the consumed span.  The
single in-loop return advances the cursor past the `>` just processed, so
`done` carries only the span; the loop driver supplies the cursor. -/
inductive ScriptStepResult where
  | next (state : Nat) (s : ScriptScan)
  | done (span : List Char)
deriving Repr

/-- The switch body of Go `readUntilScriptTagClose`, processing the
character `c` found at `cursor`.  States carry the Go integer labels:
0 scanning, 11 inside a tag, 12 after the tag slash (accumulating the
candidate close-tag name), 21 after a slash (possible comment), 22 line
comment, 25/26 block comment, 30 string literal. -/
def scriptStep (text : List Char) (starting_position : Nat)
    (scriptType : String) (c : Char) (cursor : Nat) (state : Nat)
    (s : ScriptScan) : ScriptStepResult :=
  if state = 0 then
    -- only kick off javascript style quote escapes if we're in js
    if c = '/' && scriptType = "text/javascript" then .next 21 s
    else if c = '<' then .next 11 { s with tag_start := cursor }
    else if c = '"' || c = '\'' then .next 30 { s with quote_character := c }
    else .next 0 s
  else if state = 11 then -- we're within a html tag in the code
    if c = '/' then .next 12 s
    else .next 11 s
  else if state = 12 then
    if c = '>' then
      if goToLower s.working_tag = "script" then
        .done ((text.drop starting_position).take
                 (s.tag_start - starting_position))
      else .next 12 s
    else if isWhitespace c then .next 12 s
    else .next 12 { s with working_tag := s.working_tag.push c }
  else if state = 21 then -- we hit a slash, which might be a comment
    if c = '*' then .next 25 s
    else if c = '/' then .next 22 s
    else .next 0 s
  else if state = 22 then -- read comment until newline or end of tag
    if c = '\n' then .next 0 s
    else .next 22 s
  else if state = 25 then -- almost a block comment close
    if c = '*' then .next 26 s
    else .next 25 s
  else if state = 26 then -- definitely a block comment close
    if c = '/' then .next 0 s
    else .next 26 s
  else if state = 30 then -- string literal
    if c = s.quote_character then .next 0 s
    else .next 30 s
  else .next state s

/-- The Go `readUntilScriptTagClose` for-loop: process the character under
the cursor with `scriptStep` until a close is found or the input ends.  The
loop is driven by the structural fuel `text.length - cursor` supplied by
the entry point, so that the definition is kernel-computable; a `none`
lookup or exhausted fuel is exactly the Go loop condition failing. -/
def readUntilScriptTagCloseAux (text : List Char) (starting_position : Nat)
    (scriptType : String) : Nat → Nat → Nat → ScriptScan → List Char × Nat
  | 0, cursor, _, _ =>
    ((text.drop starting_position).take (cursor - starting_position), cursor)
  | fuel + 1, cursor, state, s =>
    match text[cursor]? with
    | none =>
      ((text.drop starting_position).take (cursor - starting_position), cursor)
    | some c =>
      match scriptStep text starting_position scriptType c cursor state s with
      | .next state2 s2 =>
        readUntilScriptTagCloseAux text starting_position scriptType
          fuel (cursor + 1) state2 s2
      | .done span => (span, cursor + 1)

/-- Go `readUntilScriptTagClose`: the consumed span and the advanced cursor
(the Go error result is always nil and is dropped). -/
def readUntilScriptTagClose (text : List Char) (cursor : Nat)
    (scriptType : String) : List Char × Nat :=
  readUntilScriptTagCloseAux text cursor scriptType (text.length - cursor)
    cursor 0 {}

/-- Go `elementStack.ToString` on the stack contents (top of stack first in
the list): the Go loop prepends each name walking from the top, yielding the
chain bottom-to-top joined by " > ", or the sentinel "*" when empty. -/
def elementStackToString (stack : List Element) : String :=
  match stack with
  | [] => "*"
  | _ => " > ".intercalate (stack.map Element.ElementName).reverse

/-- The structural-mismatch error text built by Go `parseChildren` in strict
mode (the two `fmt.Sprintf` calls concatenated). -/
def mismatchMessage (body : List Char) (cursor : Nat)
    (closeName expectedName : String) (tagStack : List Element) : String :=
  "unexpected close </" ++ closeName ++ "> (expected </" ++ expectedName ++
    ">) on line: " ++ toString (countNewlinesBefore body cursor) ++
    "\ncurrent path: " ++ elementStackToString tagStack

/-- Step 1 of a tree-builder iteration: if the scanned text run is non-empty
and not entirely whitespace, append it to the parent as a text leaf. -/
def levelTextStep (parentElement : Element) (results : List Char) : Element :=
  if results.length > 0 && !isContinuousWhitespace results then
    parentElement.AddChild (newTextNode results)
  else parentElement

/-- Outcome of one Go `parseChildren` call: the final state of the parent
element and cursor with a nil error (`ok`) or a non-nil error (`err`), or a
runtime panic (`panic`) from dereferencing the nil `Peek()` result when a
close tag arrives on an empty tag-context stack. -/
inductive PCResult where
  | ok (parent : Element) (cursor : Nat)
  | err (parent : Element) (cursor : Nat) (msg : String)
  | panic
deriving Repr

/-- The final cursor of a `parseChildren` outcome is at least `cursor`
(trivial for a panic, which carries no cursor). -/
def PCResult.cursorGE (cursor : Nat) : PCResult → Prop
  | .ok _ c => cursor ≤ c
  | .err _ c _ => cursor ≤ c
  | .panic => True

/-- Go `parseChildren` (the tree-builder level loop), with an explicit fuel
bound on the total number of loop iterations and recursive descents
(`none` = fuel exhausted; sufficiency of `body.length + 1` is proved below).
The tag-context stack is threaded by value, top first: `Duplicate()`
followed by `Push` is consing the fresh tag, and the caller keeps its own
list (the by-value soundness of this is the subject of the elementStack heap
model below). -/
def parseChildren (fuel : Nat) (body : List Char) (parentElement : Element)
    (cursor : Nat) (tagStack : List Element)
    (shouldCheckElementStack : Bool) (parse_start : Nat) : Option PCResult :=
  match fuel with
  | 0 => none
  | fuel + 1 =>
    if body.length = 0 then some (.ok parentElement cursor)
    else if cursor < body.length then
      let ru := readUntilTag body cursor
      let results := ru.1
      let cursor1 := ru.2
      let parent1 := levelTextStep parentElement results
      let rt := readTag body cursor1
      match rt.error with
      | some msg => some (.err parent1 rt.cursor msg)
      | none =>
        let read_tag := rt.elem
        let cursor2 := rt.cursor
        if read_tag.IsClose then
          -- expected_tag := tagStack.Peek(); a nil Peek() is dereferenced
          match tagStack.head? with
          | none => some .panic
          | some expected_tag =>
            if expected_tag.ElementName = read_tag.ElementName then
              some (.ok (parent1.setInnerHTML (goSlice body parse_start cursor2))
                        cursor2)
            else if shouldCheckElementStack then
              some (.err parent1 cursor2
                (mismatchMessage body cursor2 read_tag.ElementName
                  expected_tag.ElementName tagStack))
            else
              -- lenient: the close tag is dropped, the level continues
              parseChildren fuel body parent1 cursor2 tagStack
                shouldCheckElementStack parse_start
        else if read_tag.IsVoid then
          parseChildren fuel body (parent1.AddChild (.mk read_tag []))
            cursor2 tagStack shouldCheckElementStack parse_start
        else if read_tag.ElementName = "script" then
          let script_type :=
            match mapGet read_tag.Attributes "type" with
            | some tag_script_type => tag_script_type
            | none => "text/javascript"
          let sc := readUntilScriptTagClose body cursor2 script_type
          let script_elem :=
            (Element.mk read_tag []).AddChild (newTextNode sc.1)
          parseChildren fuel body (parent1.AddChild script_elem) sc.2
            tagStack shouldCheckElementStack parse_start
        else
          -- Duplicate() then Push(*read_tag): the child owns the consed copy
          let new_stack := Element.mk read_tag [] :: tagStack
          match parseChildren fuel body (.mk read_tag []) cursor2 new_stack
              shouldCheckElementStack cursor2 with
          | none => none
          | some .panic => some .panic
          | some (.ok child cursor3) =>
            parseChildren fuel body (parent1.AddChild child) cursor3 tagStack
              shouldCheckElementStack parse_start
          | some (.err child cursor3 msg) =>
            some (.err (parent1.AddChild child) cursor3 msg)
    else
      some (.ok (parentElement.setInnerHTML (goSlice body parse_start cursor))
                cursor)

/-- Go `Element{IsRoot: true}`, the synthetic root of each parse. -/
def rootElement : Element := .mk { IsRoot := true } []

/-- Go `Parse` (lenient mode), with fuel `body.length + 1` (proved
sufficient below). -/
def Parse (body : String) : Option PCResult :=
  parseChildren (body.toList.length + 1) body.toList rootElement 0 [] false 0

/-- Go `ParseStrict` (strict mode), with fuel `body.length + 1` (proved
sufficient below). -/
def ParseStrict (body : String) : Option PCResult :=
  parseChildren (body.toList.length + 1) body.toList rootElement 0 [] true 0

/-!
Heap model of the Go `elementStack`.  The aliasing content of the
`Duplicate` claim (pushes/pops on the copy never perturb the original) is
about shared mutable state, so the linked-list structure is modelled
explicitly: a heap of allocated `elementStackNode`s addressed by index, and
stack headers (`Top`/`Count`) pointing into it.  `Push` allocates a node at
the end of the heap; `Pop` only moves the header's `Top`; nodes are never
mutated after allocation — exactly the Go code's behaviour.
-/

/-- Go `elementStackNode`: `Next` is the pointer to the node below
(`none` = nil), `Value` the stored element. -/
structure elementStackNode where
  Next : Option Nat
  Value : Element

/-- The allocation arena for stack nodes; an index into it is a pointer. -/
abbrev NodeHeap := List elementStackNode

/-- Go `elementStack` header: the `Top` pointer and the `Count`. -/
structure elementStack where
  Top : Option Nat := none
  Count : Int := 0

/-- Go `elementStack.Push`: allocate a node whose `Next` is the old top
(both Go branches produce exactly this node) and point `Top` at it. -/
def stackPush (h : NodeHeap) (es : elementStack) (e : Element) :
    NodeHeap × elementStack :=
  (h ++ [⟨es.Top, e⟩], { Top := some h.length, Count := es.Count + 1 })

/-- Go `elementStack.Pop`: `nil` top returns nil; otherwise move `Top` to
the popped node's `Next` and return its value.  The heap is untouched. -/
def stackPop (h : NodeHeap) (es : elementStack) :
    elementStack × Option Element :=
  match es.Top with
  | none => (es, none)
  | some t =>
    match h[t]? with
    | none => (es, none) -- dangling pointer; unreachable for allocated stacks
    | some node => ({ Top := node.Next, Count := es.Count - 1 }, some node.Value)

/-- Go `elementStack.Peek`: the value at the top pointer, if any. -/
def stackPeek (h : NodeHeap) (es : elementStack) : Option Element :=
  match es.Top with
  | none => none
  | some t => (h[t]?).map (fun node => node.Value)

/-- The chain of elements reachable from a node pointer, top first, with a
fuel bound on the walk (the Go loops `for nodePtr != nil`). -/
def chainElems (h : NodeHeap) : Nat → Option Nat → List Element
  | 0, _ => []
  | _ + 1, none => []
  | fuel + 1, some t =>
    match h[t]? with
    | none => []
    | some node => node.Value :: chainElems h fuel node.Next

/-- Go `elementStack.ToString`: the empty stack renders the sentinel `*`;
otherwise the walk from the top prepends each name, yielding the chain
bottom-to-top joined by " > ". -/
def stackToString (h : NodeHeap) (es : elementStack) : String :=
  match es.Top with
  | none => "*"
  | some _ =>
    " > ".intercalate ((chainElems h h.length es.Top).map Element.ElementName).reverse

/-- Go `elementStack.Duplicate`: collect the chain values bottom-first and
push each onto a fresh stack, allocating fresh nodes in the same heap. -/
def stackDuplicate (h : NodeHeap) (es : elementStack) :
    NodeHeap × elementStack :=
  match es.Top with
  | none => (h, {})
  | some _ =>
    let nodes := (chainElems h h.length es.Top).reverse
    nodes.foldl (fun hs node => stackPush hs.1 hs.2 node) (h, {})

/-- `ReprChain h p l`: the pointer `p` heads a well-formed allocated chain
in `h` whose values, top first, are `l`.  Pointers strictly decrease along
the chain (each node's `Next` was allocated before it), which every stack
built by `stackPush` satisfies. -/
inductive ReprChain (h : NodeHeap) : Option Nat → List Element → Prop
  | nil : ReprChain h none []
  | cons (t : Nat) (node : elementStackNode) (l : List Element)
      (ht : h[t]? = some node)
      (hdec : ∀ u, node.Next = some u → u < t)
      (htail : ReprChain h node.Next l) :
      ReprChain h (some t) (node.Value :: l)

/-- The rendering of a stack's contents (top first) used to state
`ToString` facts abstractly. -/
def renderChain (l : List Element) : String :=
  match l with
  | [] => "*"
  | _ => " > ".intercalate (l.map Element.ElementName).reverse

/-- Push `br` onto an empty stack in an empty heap (the spec's example). -/
def exampleStack1 : NodeHeap × elementStack :=
  stackPush [] {} (Element.mk { ElementName := "br" } [])

/-- ... then push a first `div`. -/
def exampleStack2 : NodeHeap × elementStack :=
  stackPush exampleStack1.1 exampleStack1.2 (Element.mk { ElementName := "div" } [])

/-- ... then push a second `div`. -/
def exampleStack3 : NodeHeap × elementStack :=
  stackPush exampleStack2.1 exampleStack2.2 (Element.mk { ElementName := "div" } [])

/-! ### Cursor bounds for the scanners -/

theorem readUntilTagAux_ge (text : List Char) :
    ∀ (fuel cursor : Nat), cursor ≤ readUntilTagAux text fuel cursor := by
  intro fuel
  induction fuel with
  | zero => intro cursor; exact Nat.le_refl cursor
  | succ fuel ih =>
    intro cursor
    simp only [readUntilTagAux]
    split
    · exact Nat.le_refl cursor
    · split
      · exact Nat.le_trans (Nat.le_succ cursor) (ih (cursor + 1))
      · split
        · exact Nat.le_refl cursor
        · exact Nat.le_trans (Nat.le_succ cursor) (ih (cursor + 1))

theorem readUntilTagAux_le (text : List Char) :
    ∀ (fuel cursor : Nat), cursor ≤ text.length →
      readUntilTagAux text fuel cursor ≤ text.length := by
  intro fuel
  induction fuel with
  | zero => intro cursor hc; exact hc
  | succ fuel ih =>
    intro cursor hc
    simp only [readUntilTagAux]
    split
    · exact hc
    next c hget =>
      have hlt : cursor < text.length := by
        by_contra hge
        rw [List.getElem?_eq_none (by omega)] at hget
        exact Option.noConfusion hget
      split
      · exact ih (cursor + 1) hlt
      · split
        · exact hc
        · exact ih (cursor + 1) hlt

theorem readTagAux_cursor_ge (text : List Char) :
    ∀ (fuel cursor state : Nat) (s : TagScan),
      cursor ≤ (readTagAux text fuel cursor state s).cursor := by
  intro fuel
  induction fuel with
  | zero => intro cursor state s; exact Nat.le_refl cursor
  | succ fuel ih =>
    intro cursor state s
    simp only [readTagAux]
    split
    · exact Nat.le_refl cursor
    · split
      · exact Nat.le_trans (Nat.le_succ cursor) (ih (cursor + 1) _ _)
      · exact Nat.le_succ cursor

theorem readTagAux_cursor_le (text : List Char) :
    ∀ (fuel cursor state : Nat) (s : TagScan), cursor ≤ text.length →
      (readTagAux text fuel cursor state s).cursor ≤ text.length := by
  intro fuel
  induction fuel with
  | zero => intro cursor state s hc; exact hc
  | succ fuel ih =>
    intro cursor state s hc
    simp only [readTagAux]
    split
    · exact hc
    next c hget =>
      have hlt : cursor < text.length := by
        by_contra hge
        rw [List.getElem?_eq_none (by omega)] at hget
        exact Option.noConfusion hget
      split
      · exact ih (cursor + 1) _ _ hlt
      · exact hlt

theorem readTagAux_cursor_gt (text : List Char) (fuel cursor state : Nat)
    (s : TagScan) (hf : 0 < fuel) (hc : cursor < text.length) :
    cursor < (readTagAux text fuel cursor state s).cursor := by
  cases fuel with
  | zero => omega
  | succ fuel =>
    simp only [readTagAux, List.getElem?_eq_getElem hc]
    split
    · exact Nat.lt_of_lt_of_le (Nat.lt_succ_self cursor)
        (readTagAux_cursor_ge text fuel (cursor + 1) _ _)
    · exact Nat.lt_succ_self cursor

theorem readUntilScriptTagCloseAux_cursor_ge (text : List Char) (sp : Nat)
    (scriptType : String) :
    ∀ (fuel cursor state : Nat) (s : ScriptScan),
      cursor ≤
        (readUntilScriptTagCloseAux text sp scriptType fuel cursor state s).2 := by
  intro fuel
  induction fuel with
  | zero => intro cursor state s; exact Nat.le_refl cursor
  | succ fuel ih =>
    intro cursor state s
    simp only [readUntilScriptTagCloseAux]
    split
    · exact Nat.le_refl cursor
    · split
      · exact Nat.le_trans (Nat.le_succ cursor) (ih (cursor + 1) _ _)
      · exact Nat.le_succ cursor

theorem readUntilTag_snd_ge (text : List Char) (cursor : Nat) :
    cursor ≤ (readUntilTag text cursor).2 :=
  readUntilTagAux_ge text (text.length - cursor) cursor

theorem readUntilTag_snd_le (text : List Char) (cursor : Nat)
    (hc : cursor ≤ text.length) : (readUntilTag text cursor).2 ≤ text.length :=
  readUntilTagAux_le text (text.length - cursor) cursor hc

theorem readTag_cursor_ge (text : List Char) (cursor : Nat) :
    cursor ≤ (readTag text cursor).cursor :=
  readTagAux_cursor_ge text (text.length - cursor) cursor 0 { elem := {} }

theorem readTag_cursor_le (text : List Char) (cursor : Nat)
    (hc : cursor ≤ text.length) : (readTag text cursor).cursor ≤ text.length :=
  readTagAux_cursor_le text (text.length - cursor) cursor 0 { elem := {} } hc

/-- A tree-builder iteration strictly advances the cursor: from a cursor in
bounds, scanning text and then tokenizing one tag moves strictly forward
(either the text scan reached the end of input, or the tokenizer consumed
at least the character under its cursor). -/
theorem readTag_after_text_gt (body : List Char) (cursor : Nat)
    (hc : cursor < body.length) :
    cursor < (readTag body (readUntilTag body cursor).2).cursor := by
  by_cases hlt : (readUntilTag body cursor).2 < body.length
  · have h1 := readUntilTag_snd_ge body cursor
    have h2 := readTagAux_cursor_gt body
      (body.length - (readUntilTag body cursor).2) (readUntilTag body cursor).2
      0 { elem := {} } (by omega) hlt
    exact Nat.lt_of_le_of_lt h1 h2
  · have h1 := readUntilTag_snd_le body cursor (Nat.le_of_lt hc)
    have h2 := readTag_cursor_ge body (readUntilTag body cursor).2
    omega

theorem readUntilScriptTagClose_snd_ge (text : List Char) (cursor : Nat)
    (scriptType : String) :
    cursor ≤ (readUntilScriptTagClose text cursor scriptType).2 :=
  readUntilScriptTagCloseAux_cursor_ge text cursor scriptType
    (text.length - cursor) cursor 0 {}

theorem cursorGE_mono {a b : Nat} {r : PCResult} (hab : a ≤ b)
    (h : PCResult.cursorGE b r) : PCResult.cursorGE a r := by
  cases r <;> simp [PCResult.cursorGE] at h ⊢ <;> omega

/-- A `parseChildren` call never moves the cursor backwards. -/
theorem parseChildren_cursor_mono : ∀ (fuel : Nat) (body : List Char)
    (parent : Element) (cursor : Nat) (stack : List Element) (strict : Bool)
    (ps : Nat) (r : PCResult),
    parseChildren fuel body parent cursor stack strict ps = some r →
    PCResult.cursorGE cursor r := by
  intro fuel
  induction fuel with
  | zero =>
    intro body parent cursor stack strict ps r h
    simp [parseChildren] at h
  | succ fuel ih =>
    intro body parent cursor stack strict ps r h
    simp only [parseChildren] at h
    split at h
    · injection h with h1
      subst h1
      exact Nat.le_refl cursor
    · split at h
      next hc =>
        split at h
        next msg herr =>
          injection h with h1
          subst h1
          have h1 := readUntilTag_snd_ge body cursor
          have h2 := readTag_cursor_ge body (readUntilTag body cursor).2
          exact Nat.le_trans h1 h2
        next herr =>
          have hcc : cursor ≤ (readTag body (readUntilTag body cursor).2).cursor :=
            Nat.le_trans (readUntilTag_snd_ge body cursor)
              (readTag_cursor_ge body (readUntilTag body cursor).2)
          split at h
          · -- close tag
            split at h
            · -- empty stack: panic
              injection h with h1
              subst h1
              trivial
            · split at h
              · -- matching close
                injection h with h1
                subst h1
                exact hcc
              · split at h
                · -- strict mismatch
                  injection h with h1
                  subst h1
                  exact hcc
                · -- lenient mismatch: drop and continue
                  exact cursorGE_mono hcc (ih _ _ _ _ _ _ _ h)
          · split at h
            · -- void leaf
              exact cursorGE_mono hcc (ih _ _ _ _ _ _ _ h)
            · split at h
              · -- script leaf
                have hs := readUntilScriptTagClose_snd_ge body
                  (readTag body (readUntilTag body cursor).2).cursor
                  (match mapGet (readTag body (readUntilTag body cursor).2).elem.Attributes "type" with
                   | some tag_script_type => tag_script_type
                   | none => "text/javascript")
                exact cursorGE_mono (Nat.le_trans hcc hs) (ih _ _ _ _ _ _ _ h)
              · -- container: recursive descent then continue
                split at h
                next heq => exact Option.noConfusion h
                next heq =>
                  injection h with h1
                  subst h1
                  trivial
                next child c3 heq =>
                  have hchild := ih _ _ _ _ _ _ _ heq
                  exact cursorGE_mono
                    (Nat.le_trans hcc hchild) (ih _ _ _ _ _ _ _ h)
                next child c3 msg heq =>
                  injection h with h1
                  subst h1
                  have hchild := ih _ _ _ _ _ _ _ heq
                  exact Nat.le_trans hcc hchild
      next hc =>
        injection h with h1
        subst h1
        exact Nat.le_refl cursor

/-- Fuel sufficiency: `body.length - cursor + 1` iterations of fuel always
complete the parse, because every loop iteration and every recursive
descent strictly advances the cursor while it is in bounds. -/
theorem parseChildren_fuel_sufficient : ∀ (fuel : Nat) (body : List Char)
    (parent : Element) (cursor : Nat) (stack : List Element) (strict : Bool)
    (ps : Nat), body.length - cursor < fuel →
    (parseChildren fuel body parent cursor stack strict ps).isSome := by
  intro fuel
  induction fuel with
  | zero =>
    intro body parent cursor stack strict ps h
    omega
  | succ fuel ih =>
    intro body parent cursor stack strict ps h
    simp only [parseChildren]
    split
    · rfl
    · split
      next hc =>
        have hgt := readTag_after_text_gt body cursor hc
        split
        · rfl
        · split
          · -- close tag
            split
            · rfl
            · split
              · rfl
              · split
                · rfl
                · exact ih _ _ _ _ _ _ (by omega)
          · split
            · -- void leaf
              exact ih _ _ _ _ _ _ (by omega)
            · split
              · -- script leaf
                have hs := readUntilScriptTagClose_snd_ge body
                  (readTag body (readUntilTag body cursor).2).cursor
                  (match mapGet (readTag body (readUntilTag body cursor).2).elem.Attributes "type" with
                   | some tag_script_type => tag_script_type
                   | none => "text/javascript")
                exact ih _ _ _ _ _ _ (by omega)
              · -- container: recursive descent then continue
                split
                next heq =>
                  have hd := ih body (.mk (readTag body (readUntilTag body cursor).2).elem [])
                    (readTag body (readUntilTag body cursor).2).cursor
                    (Element.mk (readTag body (readUntilTag body cursor).2).elem [] :: stack)
                    strict (readTag body (readUntilTag body cursor).2).cursor (by omega)
                  rw [heq] at hd
                  exact absurd hd (by simp)
                next heq => rfl
                next child c3 heq =>
                  have hchild := parseChildren_cursor_mono _ _ _ _ _ _ _ _ heq
                  simp only [PCResult.cursorGE] at hchild
                  exact ih _ _ _ _ _ _ (by omega)
                next child c3 msg heq => rfl
      next hc => rfl

/-- Mode irrelevance on success: the strict flag is consulted only in the
close-tag-mismatch branch, so a strict run that returns a tree without
error never took that branch, and the lenient run follows the identical
path to the identical tree. -/
theorem parseChildren_strict_ok_lenient : ∀ (fuel : Nat) (body : List Char)
    (parent : Element) (cursor : Nat) (stack : List Element) (ps : Nat)
    (p : Element) (c : Nat),
    parseChildren fuel body parent cursor stack true ps = some (.ok p c) →
    parseChildren fuel body parent cursor stack false ps = some (.ok p c) := by
  intro fuel
  induction fuel with
  | zero =>
    intro body parent cursor stack ps p c h
    simp [parseChildren] at h
  | succ fuel ih =>
    intro body parent cursor stack ps p c h
    simp only [parseChildren] at h ⊢
    split at h
    next h0 =>
      rw [if_pos h0]
      exact h
    next h0 =>
      rw [if_neg h0]
      split at h
      next hc =>
        rw [if_pos hc]
        split at h
        next msg herr =>
          exact absurd h (by simp)
        next herr =>
          split at h
          next hcl =>
            rw [if_pos hcl]
            split at h
            next hpk =>
              exact absurd h (by simp)
            next expected_tag hpk =>
              split at h
              next hn =>
                rw [if_pos hn]
                exact h
              next hn =>
                rw [if_neg hn]
                rw [if_pos trivial] at h
                exact absurd h (by simp)
          next hcl =>
            rw [if_neg hcl]
            split at h
            next hv =>
              rw [if_pos hv]
              exact ih _ _ _ _ _ _ _ h
            next hv =>
              rw [if_neg hv]
              split at h
              next hscr =>
                rw [if_pos hscr]
                exact ih _ _ _ _ _ _ _ h
              next hscr =>
                rw [if_neg hscr]
                split at h
                next heq => exact Option.noConfusion h
                next heq => exact absurd h (by simp)
                next child c3 heq =>
                  rw [ih _ _ _ _ _ _ _ heq]
                  exact ih _ _ _ _ _ _ _ h
                next child c3 msg heq =>
                  exact absurd h (by simp)
      next hc =>
        rw [if_neg hc]
        exact h

/-! ### Helpers for the per-iteration theorems -/

/-- With no `<` ahead of the cursor, the text scan runs to end of input. -/
theorem readUntilTagAux_no_lt (text : List Char) :
    ∀ (fuel cursor : Nat), cursor + fuel = text.length →
      ¬ '<' ∈ text.drop cursor → readUntilTagAux text fuel cursor = text.length := by
  intro fuel
  induction fuel with
  | zero => intro cursor hsum hn; simpa [readUntilTagAux] using hsum
  | succ fuel ih =>
    intro cursor hsum hn
    have hlt : cursor < text.length := by omega
    rw [List.drop_eq_getElem_cons hlt] at hn
    simp only [List.mem_cons, not_or] at hn
    simp only [readUntilTagAux, List.getElem?_eq_getElem hlt]
    split
    · exact ih (cursor + 1) (by omega) hn.2
    · split
      next heq => exact absurd heq.symm hn.1
      next heq => exact ih (cursor + 1) (by omega) hn.2

/-- `readTag` at or past the end of input consumes nothing and finalizes
the fresh record. -/
theorem readTag_at_end (text : List Char) (cursor : Nat)
    (h : ¬ cursor < text.length) :
    readTag text cursor = finalizeTag { elem := {} } cursor := by
  rw [readTag, show text.length - cursor = 0 by omega]
  rfl

/-- One unfolding of `parseChildren` when the cursor is at or past the end
of a non-empty body: the level ends, recording its consumed span. -/
theorem parseChildren_at_end (fuel : Nat) (body : List Char) (parent : Element)
    (cursor : Nat) (stack : List Element) (strict : Bool) (ps : Nat)
    (hb : ¬ body.length = 0) (hc : ¬ cursor < body.length) :
    parseChildren (fuel + 1) body parent cursor stack strict ps =
      some (.ok (parent.setInnerHTML (goSlice body ps cursor)) cursor) := by
  simp only [parseChildren]
  rw [if_neg hb, if_neg hc]


/-! ### Per-iteration behaviour of the tree builder at a close tag -/

/-- Claim C1 (amended): in lenient mode, a close tag whose name does not
match the top of a NON-EMPTY Tag-Context Stack is silently dropped: the
level continues at the next tag with the same parent (text appended), the
same stack and the same span start.  As literally stated the claim is
false: when the stack is empty (a close tag at top level) the code
dereferences the nil result of `Peek()` and panics instead of completing
normally (see the counterexample). -/
theorem claim_C1_lenient_mismatch_drops (fuel : Nat) (body : List Char)
    (parent : Element) (cursor : Nat) (top : Element) (rest : List Element)
    (ps : Nat) (hc : cursor < body.length)
    (herr : (readTag body (readUntilTag body cursor).2).error = none)
    (hclose : (readTag body (readUntilTag body cursor).2).elem.IsClose = true)
    (hmm : ¬ top.ElementName =
      (readTag body (readUntilTag body cursor).2).elem.ElementName) :
    parseChildren (fuel + 1) body parent cursor (top :: rest) false ps =
      parseChildren fuel body
        (levelTextStep parent (readUntilTag body cursor).1)
        (readTag body (readUntilTag body cursor).2).cursor
        (top :: rest) false ps := by
  have hb : ¬ body.length = 0 := by omega
  simp only [parseChildren]
  rw [if_neg hb, if_pos hc]
  simp only [herr, hclose, List.head?_cons, eq_self_iff_true, if_true,
    if_neg hmm, if_neg Bool.false_ne_true]

/-- Claim C3 (amended): when a level ends on a matching close tag, the
container records as its `InnerHTML` the exact substring of the input from
the end of its open tag (the span start of the level) up to and INCLUDING
the matching close tag itself (the cursor after tokenizing the close tag,
not the position where the close tag starts).  The original claim, which
excludes the close tag, is refuted by the counterexample. -/
theorem claim_C3_matching_close_span (fuel : Nat) (body : List Char)
    (parent : Element) (cursor : Nat) (top : Element) (rest : List Element)
    (strict : Bool) (ps : Nat) (hc : cursor < body.length)
    (herr : (readTag body (readUntilTag body cursor).2).error = none)
    (hclose : (readTag body (readUntilTag body cursor).2).elem.IsClose = true)
    (hmatch : top.ElementName =
      (readTag body (readUntilTag body cursor).2).elem.ElementName) :
    parseChildren (fuel + 1) body parent cursor (top :: rest) strict ps =
      some (.ok ((levelTextStep parent (readUntilTag body cursor).1).setInnerHTML
          (goSlice body ps (readTag body (readUntilTag body cursor).2).cursor))
        (readTag body (readUntilTag body cursor).2).cursor) := by
  have hb : ¬ body.length = 0 := by omega
  simp only [parseChildren]
  rw [if_neg hb, if_pos hc]
  simp only [herr, hclose, List.head?_cons, eq_self_iff_true, if_true,
    if_pos hmatch]

/-- Claim C4 (amended): a strict-mode structural mismatch (close tag not
matching the top of a non-empty stack) fails with an error message that
contains the unexpected close-tag name, the expected tag name, the count of
newlines before the cursor (a 0-BASED line index: a mismatch on the first
line reports `line: 0`, not 1), and the ancestor path rendered from the
Tag-Context Stack.  The original claim's 1-based line number is refuted by
the counterexample. -/
theorem claim_C4_strict_mismatch_error (fuel : Nat) (body : List Char)
    (parent : Element) (cursor : Nat) (top : Element) (rest : List Element)
    (ps : Nat) (hc : cursor < body.length)
    (herr : (readTag body (readUntilTag body cursor).2).error = none)
    (hclose : (readTag body (readUntilTag body cursor).2).elem.IsClose = true)
    (hmm : ¬ top.ElementName =
      (readTag body (readUntilTag body cursor).2).elem.ElementName) :
    parseChildren (fuel + 1) body parent cursor (top :: rest) true ps =
      some (.err (levelTextStep parent (readUntilTag body cursor).1)
        (readTag body (readUntilTag body cursor).2).cursor
        ("unexpected close </" ++
          (readTag body (readUntilTag body cursor).2).elem.ElementName ++
          "> (expected </" ++ top.ElementName ++ ">) on line: " ++
          toString (countNewlinesBefore body
            (readTag body (readUntilTag body cursor).2).cursor) ++
          "\ncurrent path: " ++ elementStackToString (top :: rest))) := by
  have hb : ¬ body.length = 0 := by omega
  simp only [parseChildren]
  rw [if_neg hb, if_pos hc]
  simp only [herr, hclose, List.head?_cons, eq_self_iff_true, if_true,
    if_neg hmm]
  rfl


/-- Claim C10: when the rest of the input from the cursor contains no `<`
and is not entirely whitespace, the level appends the text node holding
that rest verbatim and then one extra trailing child: an element with empty
name, no children, empty `InnerHTML` and all flags false, produced because
`readTag` at end of input returns an empty non-close, non-void record that
the tree builder treats as a container. -/
theorem claim_C10_trailing_text (fuel : Nat) (body : List Char)
    (parent : Element) (cursor : Nat) (stack : List Element) (strict : Bool)
    (ps : Nat) (hc : cursor < body.length)
    (hnolt : ¬ '<' ∈ body.drop cursor)
    (hnws : isContinuousWhitespace (body.drop cursor) = false) :
    parseChildren (fuel + 2) body parent cursor stack strict ps =
      some (.ok (((parent.AddChild (newTextNode (body.drop cursor))).AddChild
          (Element.mk {} [])).setInnerHTML (goSlice body ps body.length))
        body.length) := by
  have hb : ¬ body.length = 0 := by omega
  have hru : readUntilTag body cursor = (body.drop cursor, body.length) := by
    simp only [readUntilTag,
      readUntilTagAux_no_lt body (body.length - cursor) cursor (by omega) hnolt]
    rw [List.take_of_length_le (by simp)]
  have hrt : readTag body body.length = ⟨{}, body.length, none⟩ := by
    rw [readTag_at_end body body.length (by omega)]
    rfl
  have hlts : levelTextStep parent (body.drop cursor) =
      parent.AddChild (newTextNode (body.drop cursor)) := by
    have h1 : 0 < (body.drop cursor).length := by
      rw [List.length_drop]; omega
    unfold levelTextStep
    split
    next => rfl
    next hcond =>
      rw [hnws] at hcond
      simp [h1] at hcond
      exact absurd hcond (by omega)
  obtain ⟨F, hF⟩ : ∃ F, F = fuel + 1 := ⟨fuel + 1, rfl⟩
  rw [show fuel + 2 = F + 1 by omega]
  simp only [parseChildren]
  rw [if_neg hb, if_pos hc]
  simp only [hru, hrt, hlts]
  rw [if_neg Bool.false_ne_true, if_neg Bool.false_ne_true,
    if_neg (show ¬ (("" : String) = "script") by decide)]
  rw [hF,
    parseChildren_at_end fuel body (Element.mk {} []) body.length
      (Element.mk {} [] :: stack) strict body.length hb (by omega)]
  show parseChildren (fuel + 1) body
      ((parent.AddChild (newTextNode (body.drop cursor))).AddChild
        ((Element.mk {} []).setInnerHTML (goSlice body body.length body.length)))
      body.length stack strict ps = _
  rw [parseChildren_at_end fuel body
    ((parent.AddChild (newTextNode (body.drop cursor))).AddChild
      ((Element.mk {} []).setInnerHTML (goSlice body body.length body.length)))
    body.length stack strict ps hb (by omega)]
  have hgs : goSlice body body.length body.length = "" := by
    simp only [goSlice, Nat.sub_self, List.take_zero]
    rfl
  rw [hgs]
  rfl


/-! ### Tokenizer state behaviour (comment close, name accumulation) -/

/-- From the unhandled state 11 (entered from state 10 on a `-` in the tag
name) every remaining character is skipped, and the record is finalized at
end of input. -/
theorem readTagAux_state11_runs_out (text : List Char) :
    ∀ (fuel cursor : Nat) (s : TagScan), cursor + fuel = text.length →
      readTagAux text fuel cursor 11 s = finalizeTag s text.length := by
  intro fuel
  induction fuel with
  | zero =>
    intro cursor s hsum
    simp only [readTagAux]
    rw [show cursor = text.length by omega]
  | succ fuel ih =>
    intro cursor s hsum
    have hlt : cursor < text.length := by omega
    simp only [readTagAux, List.getElem?_eq_getElem hlt]
    rw [show readTagStep (text[cursor]) 11 s = .next 11 s by simp [readTagStep]]
    exact ih (cursor + 1) s (by omega)

/-- Claim C5: the Script-Body Scanner on `var a = "abc";</script>` returns
exactly `var a = "abc";` with the cursor advanced past the literal close
tag (position 23 = end of input), and on `alert('</script>');</script>` it
returns exactly `alert('</script>');` (cursor 28), not closing on the
`</script>` text inside the single-quoted string literal. -/
theorem claim_C5_script_scanner :
    readUntilScriptTagClose "var a = \"abc\";</script>".toList 0
        "text/javascript" =
      ("var a = \"abc\";".toList, 23) ∧
    readUntilScriptTagClose "alert('</script>');</script>".toList 0
        "text/javascript" =
      ("alert('</script>');".toList, 28) := by
  constructor
  · decide
  · decide

/-- Claim C6 (amended): in comment mode, a `-` followed by a non-`-`
falls back to literal accumulation but appends only the aborting character
(the buffered `-` is dropped), and `--` followed by a non-`>` does NOT fall
back: the scanner stays in the confirmed-close state and discards the
character.  The original claim, that the stored content always equals the
full raw character sequence between `<!--` and `-->`, is refuted by the
counterexample. -/
theorem claim_C6_comment_abort :
    (∀ (c : Char) (s : TagScan), ¬ c = '-' →
      readTagStep c 201 s =
        .next 200 { s with elem.InnerHTML := s.elem.InnerHTML.push c }) ∧
    (∀ (c : Char) (s : TagScan), ¬ c = '>' →
      readTagStep c 202 s = .next 202 s) := by
  constructor
  · intro c s hc
    simp [readTagStep, hc]
  · intro c s hc
    simp [readTagStep, hc]

/-- Claim C7 (amended): in the tag-name state every character that is not
whitespace, `>`, `/` OR `-` is appended to the name; `>` completes the tag
with the name lower-cased and void-ness computed (`finalizeTagElem`), and
`/` directly after the name completes it self-closing; but a `-` in the
name (e.g. `<my-element>`) moves the tokenizer to the unhandled state 11,
which skips everything up to end of input and finalizes there with only
the name prefix before the `-`.  The original claim, that such names are
accumulated in full with the cursor left just past the `>`, is refuted by
the counterexample. -/
theorem claim_C7_name_accumulation :
    (∀ (c : Char) (s : TagScan), ¬ isWhitespace c = true → ¬ c = '-' →
        ¬ c = '>' → ¬ c = '/' →
      readTagStep c 10 s =
        .next 10 { s with element_name := s.element_name.push c }) ∧
    (∀ (s : TagScan), readTagStep '>' 10 s = .done (finalizeTagElem s) none) ∧
    (∀ (s : TagScan), readTagStep '/' 10 s = .done (selfCloseElem s) none) ∧
    (∀ (s : TagScan), readTagStep '-' 10 s = .next 11 s) ∧
    (∀ (text : List Char) (fuel cursor : Nat) (s : TagScan),
        cursor + fuel = text.length →
      readTagAux text fuel cursor 11 s = finalizeTag s text.length) := by
  refine ⟨?_, ?_, ?_, ?_, ?_⟩
  · intro c s hw hd hg hs
    simp [readTagStep, hw, hd, hg, hs]
  · intro s
    simp [readTagStep, isWhitespace]
  · intro s
    simp [readTagStep, isWhitespace]
  · intro s
    simp [readTagStep, isWhitespace]
  · exact readTagAux_state11_runs_out


/-! ### Entry-point claims, counterexamples and witnesses -/

/-- Claim C1 counterexample: a close tag at the top level of the document
(empty Tag-Context Stack) makes the lenient `Parse` dereference the nil
result of `Peek()`: the run panics instead of completing normally. -/
theorem claim_C1_counterexample : Parse "</div>" = some PCResult.panic := rfl

/-- Witness for the amended C1 theorem at a concrete state: a stray
`</p>` under an open `b` element is dropped and the level continues. -/
theorem claim_C1_witness :
    parseChildren 5 "</p>x".toList rootElement 0
        [Element.mk { ElementName := "b" } []] false 0 =
      parseChildren 4 "</p>x".toList
        (levelTextStep rootElement (readUntilTag "</p>x".toList 0).1)
        (readTag "</p>x".toList (readUntilTag "</p>x".toList 0).2).cursor
        [Element.mk { ElementName := "b" } []] false 0 :=
  claim_C1_lenient_mismatch_drops 4 "</p>x".toList rootElement 0
    (Element.mk { ElementName := "b" } []) [] 0 (by decide) rfl rfl (by decide)

/-- Claim C2: for every input on which the strict parse succeeds — in
particular every well-formed input, where every open tag has a matching
close tag in proper nesting and tokenization succeeds — the lenient parse
also succeeds and returns the identical element tree (hence equal under
structural equality of name, flags, attributes, InnerHTML and ordered
children) at the identical final cursor. -/
theorem claim_C2_strict_lenient_agree (body : String) (root : Element)
    (c : Nat) (h : ParseStrict body = some (.ok root c)) :
    Parse body = some (.ok root c) :=
  parseChildren_strict_ok_lenient _ _ _ _ _ _ _ _ h

/-- Witness for C2: on the well-formed `<div><p>x</p></div>` the lenient
parse returns the same tree the strict parse returns. -/
theorem claim_C2_witness :
    Parse "<div><p>x</p></div>" = some (.ok (Element.mk
      { ElementName := "", InnerHTML := "<div><p>x</p></div>", IsRoot := true }
      [Element.mk { ElementName := "div", InnerHTML := "<p>x</p></div>" }
        [Element.mk { ElementName := "p", InnerHTML := "x</p>" }
          [Element.mk
            { ElementName := "text", InnerHTML := "x", IsText := true,
              IsVoid := true }
            []]]]) 19) :=
  claim_C2_strict_lenient_agree _ _ _ rfl

/-- Claim C3 counterexample: in `<div>hi</div>` the `div` element records
`InnerHTML = "hi</div>"` — the span INCLUDES the matching close tag — not
the claimed children-region text `"hi"`. -/
theorem claim_C3_counterexample :
    Parse "<div>hi</div>" = some (.ok (Element.mk
      { ElementName := "", InnerHTML := "<div>hi</div>", IsRoot := true }
      [Element.mk { ElementName := "div", InnerHTML := "hi</div>" }
        [Element.mk
          { ElementName := "text", InnerHTML := "hi", IsText := true,
            IsVoid := true }
          []]]) 13) ∧
    ¬ ("hi</div>" : String) = "hi" :=
  ⟨rfl, by decide⟩

/-- Witness for the amended C3 theorem at the inner level of
`<div>hi</div>`. -/
theorem claim_C3_witness :
    parseChildren 1 "<div>hi</div>".toList
        (Element.mk { ElementName := "div" } []) 5
        [Element.mk { ElementName := "div" } []] false 5 =
      some (.ok ((levelTextStep (Element.mk { ElementName := "div" } [])
          (readUntilTag "<div>hi</div>".toList 5).1).setInnerHTML
        (goSlice "<div>hi</div>".toList 5
          (readTag "<div>hi</div>".toList
            (readUntilTag "<div>hi</div>".toList 5).2).cursor))
        (readTag "<div>hi</div>".toList
          (readUntilTag "<div>hi</div>".toList 5).2).cursor) :=
  claim_C3_matching_close_span 0 "<div>hi</div>".toList
    (Element.mk { ElementName := "div" } []) 5
    (Element.mk { ElementName := "div" } []) [] false 5
    (by decide) rfl rfl (by decide)

/-- Claim C4 counterexample: a mismatch on the FIRST line of the input
reports `line: 0`, not line 1 — the only digit in the whole diagnostic is
`0`, so the message does not contain a 1-based line number. -/
theorem claim_C4_counterexample :
    ParseStrict "<div></p>" = some (.err (Element.mk
      { ElementName := "", IsRoot := true }
      [Element.mk { ElementName := "div" } []]) 9
      "unexpected close </p> (expected </div>) on line: 0\ncurrent path: div") ∧
    ("unexpected close </p> (expected </div>) on line: 0\ncurrent path: div".toList.filter
      (fun ch => ch.isDigit)) = ['0'] :=
  ⟨rfl, by decide⟩

/-- Witness for the amended C4 theorem at the mismatch in `<div></p>`. -/
theorem claim_C4_witness :
    parseChildren 1 "<div></p>".toList
        (Element.mk { ElementName := "div" } []) 5
        [Element.mk { ElementName := "div" } []] true 5 =
      some (.err (levelTextStep (Element.mk { ElementName := "div" } [])
          (readUntilTag "<div></p>".toList 5).1)
        (readTag "<div></p>".toList
          (readUntilTag "<div></p>".toList 5).2).cursor
        ("unexpected close </" ++
          (readTag "<div></p>".toList
            (readUntilTag "<div></p>".toList 5).2).elem.ElementName ++
          "> (expected </" ++
          (Element.mk { ElementName := "div" } ([] : List Element)).ElementName ++
          ">) on line: " ++
          toString (countNewlinesBefore "<div></p>".toList
            (readTag "<div></p>".toList
              (readUntilTag "<div></p>".toList 5).2).cursor) ++
          "\ncurrent path: " ++
          elementStackToString [Element.mk { ElementName := "div" } []])) :=
  claim_C4_strict_mismatch_error 0 "<div></p>".toList
    (Element.mk { ElementName := "div" } []) 5
    (Element.mk { ElementName := "div" } []) [] 5
    (by decide) rfl rfl (by decide)

/-- Claim C6 counterexample: the comment `<!--a-b-->` stores `"ab"` — the
buffered `-` of the aborted tentative close is dropped — not the full raw
sequence `"a-b"` between the opener and the terminating `-->`. -/
theorem claim_C6_counterexample :
    readTag "<!--a-b-->".toList 0 =
      ⟨{ ElementName := "xmlcomment", InnerHTML := "ab", IsVoid := true,
         IsComment := true }, 10, none⟩ ∧
    ¬ ("ab" : String) = "a-b" :=
  ⟨rfl, by decide⟩

/-- Witness for the amended C6 theorem: aborting the tentative close on
`b` appends only `b`, and a confirmed close aborted on `b` stays in the
confirmed-close state. -/
theorem claim_C6_witness :
    readTagStep 'b' 201 { elem := {} } =
      .next 200 { elem := { InnerHTML := "b" } } ∧
    readTagStep 'b' 202 { elem := {} } = .next 202 { elem := {} } :=
  ⟨claim_C6_comment_abort.1 'b' { elem := {} } (by decide),
   claim_C6_comment_abort.2 'b' { elem := {} } (by decide)⟩

/-- Claim C7 counterexample: `<my-element>x` tokenizes to the name `"my"`
with the whole input consumed (cursor 13 = end of input), not the full
name `"my-element"` with the cursor just past the `>`. -/
theorem claim_C7_counterexample :
    readTag "<my-element>x".toList 0 =
      ⟨{ ElementName := "my" }, 13, none⟩ ∧
    ¬ ("my" : String) = "my-element" :=
  ⟨rfl, by decide⟩

/-- Witness for the amended C7 theorem: an ordinary character is appended
to the name, and from state 11 the rest of the input is skipped. -/
theorem claim_C7_witness :
    readTagStep 'x' 10 { elem := {} } =
      .next 10 { elem := {}, element_name := "x" } ∧
    readTagAux "ab".toList 2 0 11 { elem := {} } =
      finalizeTag { elem := {} } 2 :=
  ⟨claim_C7_name_accumulation.1 'x' { elem := {} } (by decide) (by decide)
      (by decide) (by decide),
   claim_C7_name_accumulation.2.2.2.2 "ab".toList 2 0 { elem := {} } (by decide)⟩

/-- Claim C9: both parses terminate on every finite input — the fuel
`length + 1`, justified by the strict cursor advance of every tree-builder
iteration, is never exhausted. -/
theorem claim_C9_termination (body : String) :
    (Parse body).isSome = true ∧ (ParseStrict body).isSome = true :=
  ⟨parseChildren_fuel_sufficient _ _ _ _ _ _ _ (by omega),
   parseChildren_fuel_sufficient _ _ _ _ _ _ _ (by omega)⟩

/-- Witness for C10: `Parse "hello"` yields the text node `"hello"`
followed by the empty trailing element. -/
theorem claim_C10_witness :
    Parse "hello" = some (.ok
      (((rootElement.AddChild (newTextNode ("hello".toList.drop 0))).AddChild
        (Element.mk {} [])).setInnerHTML
          (goSlice "hello".toList 0 "hello".toList.length))
      "hello".toList.length) :=
  claim_C10_trailing_text 4 "hello".toList rootElement 0 [] false 0
    (by decide) (by decide) (by decide)


/-! ### The element-stack heap model: representation lemmas -/

theorem ReprChain.head_lt {h : NodeHeap} {t : Nat} {l : List Element}
    (hr : ReprChain h (some t) l) : t < h.length := by
  cases hr with
  | cons t node l ht hdec htail =>
    by_contra hge
    rw [List.getElem?_eq_none (by omega)] at ht
    exact Option.noConfusion ht

theorem ReprChain.none_nil {h : NodeHeap} {l : List Element}
    (hr : ReprChain h none l) : l = [] := by
  cases hr
  rfl

theorem ReprChain.extend {h ext : NodeHeap} :
    ∀ {p : Option Nat} {l : List Element}, ReprChain h p l →
      ReprChain (h ++ ext) p l := by
  intro p l hr
  induction hr with
  | nil => exact .nil
  | cons t node l ht hdec htail ih =>
    refine .cons t node l ?_ hdec ih
    have hlt : t < h.length := by
      by_contra hge
      rw [List.getElem?_eq_none (by omega)] at ht
      exact Option.noConfusion ht
    rw [List.getElem?_append, if_pos hlt]
    exact ht

theorem ReprChain.length_le {h : NodeHeap} :
    ∀ {p : Option Nat} {l : List Element}, ReprChain h p l →
      ∀ t, p = some t → l.length ≤ t + 1 := by
  intro p l hr
  induction hr with
  | nil => intro t ht; exact Option.noConfusion ht
  | cons t node l ht hdec htail ih =>
    intro t2 ht2
    injection ht2 with ht2
    subst ht2
    cases hnext : node.Next with
    | none =>
      rw [hnext] at htail
      have hl := ReprChain.none_nil htail
      subst hl
      simp
    | some u =>
      have h1 := ih u hnext
      have h2 := hdec u hnext
      simp only [List.length_cons]
      omega

theorem chainElems_of_repr {h : NodeHeap} :
    ∀ {p : Option Nat} {l : List Element}, ReprChain h p l →
      ∀ fuel, l.length ≤ fuel → chainElems h fuel p = l := by
  intro p l hr
  induction hr with
  | nil =>
    intro fuel hf
    cases fuel with
    | zero => rfl
    | succ fuel => rfl
  | cons t node l ht hdec htail ih =>
    intro fuel hf
    cases fuel with
    | zero => simp at hf
    | succ fuel =>
      simp only [chainElems, ht]
      rw [ih fuel (by simp at hf; omega)]

theorem stackPush_repr {h : NodeHeap} {es : elementStack} {l : List Element}
    (hr : ReprChain h es.Top l) (e : Element) :
    ReprChain (stackPush h es e).1 ((stackPush h es e).2).Top (e :: l) := by
  refine .cons h.length ⟨es.Top, e⟩ l ?_ ?_ (ReprChain.extend hr)
  · show (h ++ [⟨es.Top, e⟩])[h.length]? = some ⟨es.Top, e⟩
    rw [List.getElem?_append, if_neg (Nat.lt_irrefl _)]
    simp
  · intro u hu
    have hu2 : es.Top = some u := hu
    rw [hu2] at hr
    exact ReprChain.head_lt hr

theorem foldl_push_repr :
    ∀ (vs : List Element) (h : NodeHeap) (es : elementStack)
      (acc : List Element), ReprChain h es.Top acc →
      ReprChain (vs.foldl (fun hs node => stackPush hs.1 hs.2 node) (h, es)).1
        (((vs.foldl (fun hs node => stackPush hs.1 hs.2 node) (h, es)).2).Top)
        (vs.reverse ++ acc) := by
  intro vs
  induction vs with
  | nil => intro h es acc hr; simpa using hr
  | cons v vs ih =>
    intro h es acc hr
    simp only [List.foldl_cons, List.reverse_cons]
    have hstep := ih (stackPush h es v).1 (stackPush h es v).2 (v :: acc)
      (stackPush_repr hr v)
    simpa [List.append_assoc] using hstep

theorem foldl_push_heap_ext :
    ∀ (vs : List Element) (h : NodeHeap) (es : elementStack),
      ∃ ext, (vs.foldl (fun hs node => stackPush hs.1 hs.2 node) (h, es)).1 =
        h ++ ext := by
  intro vs
  induction vs with
  | nil => intro h es; exact ⟨[], by simp⟩
  | cons v vs ih =>
    intro h es
    obtain ⟨ext, hext⟩ := ih (stackPush h es v).1 (stackPush h es v).2
    refine ⟨⟨es.Top, v⟩ :: ext, ?_⟩
    simp only [List.foldl_cons]
    rw [hext]
    simp [stackPush]

theorem stackToString_of_repr {h : NodeHeap} {es : elementStack}
    {l : List Element} (hr : ReprChain h es.Top l) :
    stackToString h es = renderChain l := by
  cases hT : es.Top with
  | none =>
    rw [hT] at hr
    have hnil := ReprChain.none_nil hr
    subst hnil
    simp [stackToString, hT, renderChain]
  | some t =>
    rw [hT] at hr
    have hlen : l.length ≤ h.length := by
      have h1 := ReprChain.length_le hr t rfl
      have h2 := ReprChain.head_lt hr
      omega
    have hchain := chainElems_of_repr hr h.length hlen
    cases hr with
    | cons t node l2 ht hdec htail =>
      simp only [stackToString, hT, hchain, renderChain]

theorem stackPop_of_repr {h : NodeHeap} {es : elementStack} {l : List Element}
    (hr : ReprChain h es.Top l) : (stackPop h es).2 = l.head? := by
  cases hT : es.Top with
  | none =>
    rw [hT] at hr
    have hnil := ReprChain.none_nil hr
    subst hnil
    simp [stackPop, hT]
  | some t =>
    rw [hT] at hr
    cases hr with
    | cons t node l2 ht hdec htail => simp [stackPop, hT, ht]

theorem stackDuplicate_spec {h : NodeHeap} {es : elementStack}
    {l : List Element} (hr : ReprChain h es.Top l) :
    ReprChain (stackDuplicate h es).1 ((stackDuplicate h es).2).Top l ∧
    ∃ ext, (stackDuplicate h es).1 = h ++ ext := by
  cases hT : es.Top with
  | none =>
    rw [hT] at hr
    have hnil := ReprChain.none_nil hr
    subst hnil
    constructor
    · simp only [stackDuplicate, hT]
      exact .nil
    · refine ⟨[], ?_⟩
      simp [stackDuplicate, hT]
  | some t =>
    rw [hT] at hr
    have hlen : l.length ≤ h.length := by
      have h1 := ReprChain.length_le hr t rfl
      have h2 := ReprChain.head_lt hr
      omega
    have hchain := chainElems_of_repr hr h.length hlen
    constructor
    · have hres := foldl_push_repr l.reverse h {} [] .nil
      simp only [stackDuplicate, hT, hchain]
      simpa using hres
    · obtain ⟨ext, hext⟩ := foldl_push_heap_ext l.reverse h {}
      refine ⟨ext, ?_⟩
      simp only [stackDuplicate, hT, hchain]
      exact hext


/-- Claim C8: `Duplicate()` yields a stack whose `ToString()` equals the
original's, and subsequent pushes (and pops) on either stack leave the
other's contents and `ToString()` unchanged — a push only allocates a fresh
node at the end of the heap and repoints its own header, and a pop only
moves its own header's Top pointer, never touching allocated nodes.
Concretely: pushing `br`, `div`, `div` onto an empty stack renders
"br > div > div", and an empty stack renders the sentinel "*". -/
theorem claim_C8_stack_duplicate (h : NodeHeap) (es : elementStack)
    (l : List Element) (e : Element) (hr : ReprChain h es.Top l) :
    stackToString (stackDuplicate h es).1 (stackDuplicate h es).2 =
      stackToString h es ∧
    (ReprChain (stackPush (stackDuplicate h es).1 (stackDuplicate h es).2 e).1
        es.Top l ∧
      stackToString
        (stackPush (stackDuplicate h es).1 (stackDuplicate h es).2 e).1 es =
        stackToString h es) ∧
    (ReprChain (stackPush (stackDuplicate h es).1 es e).1
        ((stackDuplicate h es).2).Top l ∧
      stackToString (stackPush (stackDuplicate h es).1 es e).1
        (stackDuplicate h es).2 = stackToString h es) ∧
    (stackPop (stackDuplicate h es).1 (stackDuplicate h es).2).2 = l.head? ∧
    stackToString [] {} = "*" ∧
    stackToString exampleStack3.1 exampleStack3.2 = "br > div > div" ∧
    stackToString (stackDuplicate exampleStack3.1 exampleStack3.2).1
      (stackDuplicate exampleStack3.1 exampleStack3.2).2 = "br > div > div" := by
  obtain ⟨hdup_repr, ext, hext⟩ := stackDuplicate_spec hr
  have horig_in_dup : ReprChain (stackDuplicate h es).1 es.Top l := by
    rw [hext]
    exact hr.extend
  have hpush_dup : ReprChain
      (stackPush (stackDuplicate h es).1 (stackDuplicate h es).2 e).1 es.Top l :=
    horig_in_dup.extend
  have hpush_orig : ReprChain (stackPush (stackDuplicate h es).1 es e).1
      ((stackDuplicate h es).2).Top l :=
    hdup_repr.extend
  refine ⟨?_, ⟨hpush_dup, ?_⟩, ⟨hpush_orig, ?_⟩, ?_, ?_, ?_, ?_⟩
  · rw [stackToString_of_repr hdup_repr, stackToString_of_repr hr]
  · rw [stackToString_of_repr hpush_dup, stackToString_of_repr hr]
  · rw [stackToString_of_repr hpush_orig, stackToString_of_repr hr]
  · exact stackPop_of_repr hdup_repr
  · rfl
  · rfl
  · rfl

/-- Witness for C8 at a one-element stack holding a `br`, duplicated and
then pushed with a `div`. -/
theorem claim_C8_witness :
    stackToString
        (stackDuplicate [⟨none, Element.mk { ElementName := "br" } []⟩]
          { Top := some 0, Count := 1 }).1
        (stackDuplicate [⟨none, Element.mk { ElementName := "br" } []⟩]
          { Top := some 0, Count := 1 }).2 =
      stackToString [⟨none, Element.mk { ElementName := "br" } []⟩]
        { Top := some 0, Count := 1 } ∧
    (ReprChain (stackPush
        (stackDuplicate [⟨none, Element.mk { ElementName := "br" } []⟩]
          { Top := some 0, Count := 1 }).1
        (stackDuplicate [⟨none, Element.mk { ElementName := "br" } []⟩]
          { Top := some 0, Count := 1 }).2
        (Element.mk { ElementName := "div" } [])).1
        ({ Top := some 0, Count := 1 } : elementStack).Top
        [Element.mk { ElementName := "br" } []] ∧
      stackToString (stackPush
        (stackDuplicate [⟨none, Element.mk { ElementName := "br" } []⟩]
          { Top := some 0, Count := 1 }).1
        (stackDuplicate [⟨none, Element.mk { ElementName := "br" } []⟩]
          { Top := some 0, Count := 1 }).2
        (Element.mk { ElementName := "div" } [])).1
        { Top := some 0, Count := 1 } =
        stackToString [⟨none, Element.mk { ElementName := "br" } []⟩]
          { Top := some 0, Count := 1 }) ∧
    (ReprChain (stackPush
        (stackDuplicate [⟨none, Element.mk { ElementName := "br" } []⟩]
          { Top := some 0, Count := 1 }).1
        { Top := some 0, Count := 1 }
        (Element.mk { ElementName := "div" } [])).1
        ((stackDuplicate [⟨none, Element.mk { ElementName := "br" } []⟩]
          { Top := some 0, Count := 1 }).2).Top
        [Element.mk { ElementName := "br" } []] ∧
      stackToString (stackPush
        (stackDuplicate [⟨none, Element.mk { ElementName := "br" } []⟩]
          { Top := some 0, Count := 1 }).1
        { Top := some 0, Count := 1 }
        (Element.mk { ElementName := "div" } [])).1
        (stackDuplicate [⟨none, Element.mk { ElementName := "br" } []⟩]
          { Top := some 0, Count := 1 }).2 =
        stackToString [⟨none, Element.mk { ElementName := "br" } []⟩]
          { Top := some 0, Count := 1 }) ∧
    (stackPop
        (stackDuplicate [⟨none, Element.mk { ElementName := "br" } []⟩]
          { Top := some 0, Count := 1 }).1
        (stackDuplicate [⟨none, Element.mk { ElementName := "br" } []⟩]
          { Top := some 0, Count := 1 }).2).2 =
      [Element.mk { ElementName := "br" } []].head? ∧
    stackToString [] {} = "*" ∧
    stackToString exampleStack3.1 exampleStack3.2 = "br > div > div" ∧
    stackToString (stackDuplicate exampleStack3.1 exampleStack3.2).1
      (stackDuplicate exampleStack3.1 exampleStack3.2).2 = "br > div > div" :=
  claim_C8_stack_duplicate [⟨none, Element.mk { ElementName := "br" } []⟩]
    { Top := some 0, Count := 1 } [Element.mk { ElementName := "br" } []]
    (Element.mk { ElementName := "div" } [])
    (ReprChain.cons 0 ⟨none, Element.mk { ElementName := "br" } []⟩ [] rfl
      (fun _ hu => Option.noConfusion hu) ReprChain.nil)

end GoHtml
